import Mathlib

/-!
# whisperkey: `ctranslate2-sys/whisper_bridge.h`

A shallow embedding of the two functions of the binding header:

* `new_whisper`, the factory around the engine's `Whisper` constructor;
* `detect_language_shim`, the shim (kept in a comment block of the header)
  that gathers the futures returned by `Whisper::detect_language` into one
  vector.

The wrapped engine is external: its constructor and its `detect_language`
are parameters of the embedding.  A C++ exception is an `Except.error`.
-/

namespace ctranslate2
namespace models

/-- One element of a detection result, `std::pair<std::string, float>`.
The score type is a parameter: no arithmetic is done on it. -/
abbrev Detection (Score : Type) : Type := String × Score

/-- What the shared state of a `std::future<T>` holds once the task has
settled: the value, or the exception the task ended with. -/
inductive SharedState (ε α : Type) where
  | value (v : α)
  | exception (e : ε)
  deriving DecidableEq, Repr

/-- A `std::future<T>`: its shared state and the time at which the task
behind it settles (the completion order of the tasks is the order of
these times). -/
structure Future (ε α : Type) where
  shared : SharedState ε α
  readyAt : Nat
  deriving DecidableEq, Repr

/-- The test "this task completed with a value". -/
def Future.succeeded {ε α : Type} (f : Future ε α) : Bool :=
  match f.shared with
  | .value _ => true
  | .exception _ => false

/-- The call `f.get()` made at time `now`: it blocks until the task has
settled, then returns the value or rethrows the stored exception.  The second
component is the time at which the call returns. -/
def Future.get {ε α : Type} (f : Future ε α) (now : Nat) : Except ε α × Nat :=
  match f.shared with
  | .value v => (.ok v, max now f.readyAt)
  | .exception e => (.error e, max now f.readyAt)

/-- Instrumentation of the loop: the indices of the futures on which `get()`
has been called, oldest call first, and the current time. -/
structure Trace where
  consumed : List Nat
  now : Nat
  deriving DecidableEq, Repr

/-- The body of the shim from `all_results` on:
```
for (auto &f : futures) {
  auto partial = f.get();
  all_results.insert(all_results.end(), partial.begin(), partial.end());
}
return all_results;
```
`idx` is the position of the head of the remaining futures in the original
vector.  An exception thrown by `get()` leaves the loop and the function. -/
def gather_loop {ε Score : Type} :
    List (Future ε (List (Detection Score))) → Nat → List (Detection Score) → Trace →
      Except ε (List (Detection Score)) × Trace
  | [], _, all_results, tr => (.ok all_results, tr)
  | f :: rest, idx, all_results, tr =>
    match f.get tr.now with
    | (.error e, t) => (.error e, ⟨tr.consumed ++ [idx], t⟩)
    | (.ok part, t) => gather_loop rest (idx + 1) (all_results ++ part) ⟨tr.consumed ++ [idx], t⟩

/-- Lines 25-30 of the header, entered at time `now`:
`std::vector<...> all_results;` followed by the loop and the return. -/
def gather_futures {ε Score : Type} (futures : List (Future ε (List (Detection Score))))
    (now : Nat) : Except ε (List (Detection Score)) × Trace :=
  gather_loop futures 0 [] ⟨[], now⟩

/-- The shim `detect_language_shim(whisper, features)`: it asks the engine for
the futures and gathers them.  `detect_language` is the engine's
`Whisper::detect_language`. -/
def detect_language_shim {ε Score W SV : Type}
    (detect_language : W → SV → List (Future ε (List (Detection Score))))
    (whisper : W) (features : SV) (now : Nat) : Except ε (List (Detection Score)) × Trace :=
  let futures := detect_language whisper features
  gather_futures futures now

/-- A `std::unique_ptr<T>` produced by `std::make_unique`: it owns the object
it was made from. -/
structure unique_ptr (α : Type) where
  pointee : α
  deriving DecidableEq, Repr

/-- The factory `new_whisper(model_dir, device)`, which is
`return std::make_unique<Whisper>(model_dir);`.
`Whisper_ctor` is the engine's constructor `Whisper::Whisper(model_dir)`: run in
a state `s` of the world it either builds a model or throws, and leaves a new
state.  The state makes every call of the constructor visible.  Storage for the
object is taken to be available. -/
def new_whisper {ε W σ : Type} (Whisper_ctor : String → σ → Except ε W × σ)
    (model_dir : String) (_device : Int) (s : σ) : Except ε (unique_ptr W) × σ :=
  match Whisper_ctor model_dir s with
  | (.ok w, s') => (.ok ⟨w⟩, s')
  | (.error e, s') => (.error e, s')

/-- The values of the futures that hold one, in order. -/
def values {ε α : Type} : List (Future ε α) → List α
  | [] => []
  | f :: rest =>
    match f.shared with
    | .value v => v :: values rest
    | .exception _ => values rest

/-- The position and the exception of the first future that holds an
exception, if there is one. -/
def first_failure {ε α : Type} : List (Future ε α) → Option (Nat × ε)
  | [] => none
  | f :: rest =>
    match f.shared with
    | .exception e => some (0, e)
    | .value _ => (first_failure rest).map (fun p => (p.1 + 1, p.2))

/-- The number of `get()` calls the loop makes on a vector of futures: one
past the first failing position, or all of them when none fails. -/
def calls {ε α : Type} (fs : List (Future ε α)) : Nat :=
  match first_failure fs with
  | none => fs.length
  | some (i, _) => i + 1

/-! ## Lemmas on the loop -/

theorem gather_loop_result {ε Score : Type} (fs : List (Future ε (List (Detection Score))))
    (idx : Nat) (acc : List (Detection Score)) (tr : Trace) :
    (gather_loop fs idx acc tr).1 =
      match first_failure fs with
      | none => .ok (acc ++ (values fs).flatten)
      | some (_, e) => .error e := by
  induction fs generalizing idx acc tr with
  | nil => simp [gather_loop, first_failure, values]
  | cons f rest ih =>
    cases hs : f.shared with
    | value v =>
      simp only [gather_loop, Future.get, hs, first_failure, values, ih]
      cases first_failure rest <;> simp
    | exception e =>
      simp [gather_loop, Future.get, hs, first_failure]

theorem gather_loop_consumed {ε Score : Type} (fs : List (Future ε (List (Detection Score))))
    (idx : Nat) (acc : List (Detection Score)) (tr : Trace) :
    (gather_loop fs idx acc tr).2.consumed = tr.consumed ++ List.range' idx (calls fs) := by
  induction fs generalizing idx acc tr with
  | nil => simp [gather_loop, calls, first_failure]
  | cons f rest ih =>
    cases hs : f.shared with
    | value v =>
      simp only [gather_loop, Future.get, hs, ih, calls, first_failure]
      cases first_failure rest <;> simp [List.range'_succ]
    | exception e =>
      simp [gather_loop, Future.get, hs, calls, first_failure]

theorem first_failure_none_iff {ε α : Type} (fs : List (Future ε α)) :
    first_failure fs = none ↔ ∀ f ∈ fs, f.succeeded = true := by
  induction fs with
  | nil => simp [first_failure]
  | cons f rest ih =>
    cases hs : f.shared with
    | value v => simp [first_failure, hs, ih, Future.succeeded]
    | exception e => simp [first_failure, hs, Future.succeeded]

theorem first_failure_of_values {ε α : Type} (fs : List (Future ε α)) (rs : List α)
    (h : fs.map Future.shared = rs.map SharedState.value) :
    first_failure fs = none ∧ values fs = rs := by
  induction fs generalizing rs with
  | nil =>
    cases rs with
    | nil => simp [first_failure, values]
    | cons r rs => simp at h
  | cons f rest ih =>
    cases rs with
    | nil => simp at h
    | cons r rs =>
      simp only [List.map_cons, List.cons.injEq] at h
      obtain ⟨h1, h2⟩ := h
      obtain ⟨i1, i2⟩ := ih rs h2
      simp [first_failure, values, h1, i1, i2]

theorem first_failure_at {ε α : Type} (fs : List (Future ε α)) (i : Nat) (f : Future ε α) (e : ε)
    (hi : fs[i]? = some f) (hf : f.shared = SharedState.exception e)
    (hlow : ∀ j g, j < i → fs[j]? = some g → g.succeeded = true) :
    first_failure fs = some (i, e) := by
  induction fs generalizing i with
  | nil => simp at hi
  | cons g rest ih =>
    cases i with
    | zero =>
      simp only [List.getElem?_cons_zero, Option.some.injEq] at hi
      subst hi
      simp [first_failure, hf]
    | succ i =>
      have hg : g.succeeded = true := hlow 0 g (Nat.succ_pos i) (by simp)
      have hrest : first_failure rest = some (i, e) := by
        apply ih i (by simpa using hi)
        intro j g' hj hg'
        exact hlow (j + 1) g' (Nat.succ_lt_succ hj) (by simpa using hg')
      cases hs : g.shared with
      | value v => simp [first_failure, hs, hrest]
      | exception e' => simp [Future.succeeded, hs] at hg

theorem first_failure_some_iff {ε α : Type} (fs : List (Future ε α)) :
    (∃ p, first_failure fs = some p) ↔ ∃ f ∈ fs, f.succeeded = false := by
  have hn := first_failure_none_iff fs
  constructor
  · rintro ⟨p, hp⟩
    by_contra hc
    push_neg at hc
    have : first_failure fs = none := hn.2 (fun f hf => by simpa using hc f hf)
    rw [hp] at this
    exact Option.noConfusion this
  · rintro ⟨f, hf, hfs⟩
    cases h : first_failure fs with
    | some p => exact ⟨p, rfl⟩
    | none =>
      have := hn.1 h f hf
      rw [hfs] at this
      exact Bool.noConfusion this

theorem calls_le {ε α : Type} (fs : List (Future ε α)) : calls fs ≤ fs.length := by
  induction fs with
  | nil => simp [calls, first_failure]
  | cons f rest ih =>
    cases hs : f.shared with
    | value v =>
      simp only [calls, first_failure, hs] at ih ⊢
      cases h : first_failure rest with
      | none => simp
      | some p => simp [h] at ih ⊢; omega
    | exception e => simp [calls, first_failure, hs]

theorem first_failure_append {ε α : Type} (xs ys : List (Future ε α)) :
    first_failure (xs ++ ys) =
      match first_failure xs with
      | some p => some p
      | none => (first_failure ys).map (fun p => (p.1 + xs.length, p.2)) := by
  induction xs with
  | nil => simp [first_failure]
  | cons f rest ih =>
    cases hs : f.shared with
    | value v =>
      have h1 : first_failure (f :: rest ++ ys) =
          (first_failure (rest ++ ys)).map (fun p => (p.1 + 1, p.2)) := by
        simp [first_failure, hs]
      have h2 : first_failure (f :: rest) =
          (first_failure rest).map (fun p => (p.1 + 1, p.2)) := by
        simp [first_failure, hs]
      rw [h1, h2, ih]
      cases first_failure rest with
      | some p => simp
      | none =>
        cases first_failure ys with
        | none => simp
        | some q => simp [Nat.add_assoc]
    | exception e => simp [first_failure, hs]

theorem values_append {ε α : Type} (xs ys : List (Future ε α)) :
    values (xs ++ ys) = values xs ++ values ys := by
  induction xs with
  | nil => simp [values]
  | cons f rest ih =>
    cases hs : f.shared with
    | value v => simp [values, hs, ih]
    | exception e => simp [values, hs, ih]

/-! ## The result aggregator -/

/-- C1: when the engine's tasks all complete with values `r0, ..., r(n-1)`,
the shim returns exactly `r0 ++ r1 ++ ... ++ r(n-1)`, in index order, whatever
the completion times of the tasks and the time of the call; any other vector of
futures holding the same values at the same positions gives the same output. -/
theorem detect_language_shim_concat {ε Score W SV : Type}
    (detect_language : W → SV → List (Future ε (List (Detection Score))))
    (whisper : W) (features : SV) (now : Nat) (rs : List (List (Detection Score)))
    (h : (detect_language whisper features).map Future.shared = rs.map SharedState.value) :
    (detect_language_shim detect_language whisper features now).1 = .ok rs.flatten ∧
    ∀ (futures' : List (Future ε (List (Detection Score)))) (now' : Nat),
      futures'.map Future.shared = (detect_language whisper features).map Future.shared →
      (gather_futures futures' now').1 = .ok rs.flatten := by
  have key : ∀ (fs : List (Future ε (List (Detection Score)))) (t : Nat),
      fs.map Future.shared = rs.map SharedState.value →
      (gather_futures fs t).1 = .ok rs.flatten := by
    intro fs t hfs
    obtain ⟨h1, h2⟩ := first_failure_of_values fs rs hfs
    rw [gather_futures, gather_loop_result, h1, h2]
    simp
  refine ⟨key _ now h, ?_⟩
  intro futures' now' h'
  exact key futures' now' (h'.trans h)

/-- C1, the order scenario: three tasks, task 2 settling before task 0 and
task 1; equal pairs are kept and the scores are not sorted. -/
theorem detect_language_shim_concat_witness :
    ((fun (_ : Unit) (_ : Unit) =>
        ([⟨.value [("en", 9), ("fr", 1)], 5⟩, ⟨.value [("de", 7)], 7⟩, ⟨.value [("en", 9)], 1⟩] :
          List (Future String (List (Detection Int))))) () ()).map Future.shared =
      ([[("en", 9), ("fr", 1)], [("de", 7)], [("en", 9)]] :
        List (List (Detection Int))).map SharedState.value ∧
    (detect_language_shim
      (fun (_ : Unit) (_ : Unit) =>
        ([⟨.value [("en", 9), ("fr", 1)], 5⟩, ⟨.value [("de", 7)], 7⟩, ⟨.value [("en", 9)], 1⟩] :
          List (Future String (List (Detection Int))))) () () 0).1 =
      .ok [("en", 9), ("fr", 1), ("de", 7), ("en", 9)] :=
  ⟨rfl, (detect_language_shim_concat
      (fun (_ : Unit) (_ : Unit) =>
        ([⟨.value [("en", 9), ("fr", 1)], 5⟩, ⟨.value [("de", 7)], 7⟩, ⟨.value [("en", 9)], 1⟩] :
          List (Future String (List (Detection Int))))) () () 0
      [[("en", 9), ("fr", 1)], [("de", 7)], [("en", 9)]] rfl).1⟩

/-- C2: the aggregator fails if and only if some task of the sequence fails;
when one fails it returns no result at all, and in particular not the
concatenation of the results of the tasks that succeeded. -/
theorem gather_futures_fails_iff {ε Score : Type}
    (ts : List (Future ε (List (Detection Score)))) (now : Nat) :
    ((∃ e, (gather_futures ts now).1 = .error e) ↔ ∃ f ∈ ts, f.succeeded = false) ∧
    ((∃ f ∈ ts, f.succeeded = false) → ∀ r, (gather_futures ts now).1 ≠ .ok r) ∧
    ((∃ f ∈ ts, f.succeeded = false) →
      (gather_futures ts now).1 ≠ .ok (values ts).flatten) := by
  have hres := gather_loop_result ts 0 [] ⟨[], now⟩
  have hiff := first_failure_some_iff ts
  have hfail : (∃ f ∈ ts, f.succeeded = false) → ∃ e, (gather_futures ts now).1 = .error e := by
    intro hf
    obtain ⟨p, hp⟩ := hiff.2 hf
    rw [hp] at hres
    exact ⟨p.2, hres⟩
  refine ⟨⟨?_, hfail⟩, ?_, ?_⟩
  · rintro ⟨e, he⟩
    apply hiff.1
    cases hff : first_failure ts with
    | some p => exact ⟨p, rfl⟩
    | none =>
      rw [hff] at hres
      rw [gather_futures, hres] at he
      exact Except.noConfusion he
  · intro hf r hr
    obtain ⟨e, he⟩ := hfail hf
    rw [he] at hr
    exact Except.noConfusion hr
  · intro hf hr
    obtain ⟨e, he⟩ := hfail hf
    rw [he] at hr
    exact Except.noConfusion hr

/-- C2 on three tasks of which task 1 fails: the two-task concatenation is
not returned. -/
theorem gather_futures_fails_iff_witness :
    (∃ f ∈ ([⟨.value [("en", 9)], 0⟩, ⟨.exception "boom", 0⟩, ⟨.value [("de", 7)], 0⟩] :
        List (Future String (List (Detection Int)))), f.succeeded = false) ∧
    (gather_futures
      ([⟨.value [("en", 9)], 0⟩, ⟨.exception "boom", 0⟩, ⟨.value [("de", 7)], 0⟩] :
        List (Future String (List (Detection Int)))) 0).1 ≠ .ok [("en", 9), ("de", 7)] :=
  ⟨⟨⟨.exception "boom", 0⟩, by simp, rfl⟩,
   (gather_futures_fails_iff
      ([⟨.value [("en", 9)], 0⟩, ⟨.exception "boom", 0⟩, ⟨.value [("de", 7)], 0⟩] :
        List (Future String (List (Detection Int)))) 0).2.1
      ⟨⟨.exception "boom", 0⟩, by simp, rfl⟩ _⟩

/-- C3 as stated fails: the reported error does not identify the failing
index.  The same exception held by task 0 of one sequence and by task 1 of
another is reported identically, so no reading of the error yields the index of
the lowest failing task. -/
theorem gather_futures_error_carries_no_index :
    (gather_futures ([⟨.exception "boom", 0⟩] :
        List (Future String (List (Detection Int)))) 0).1 = .error "boom" ∧
    (gather_futures ([⟨.value [], 0⟩, ⟨.exception "boom", 0⟩] :
        List (Future String (List (Detection Int)))) 0).1 = .error "boom" ∧
    ¬ ∃ index_of : String → Nat,
      ∀ (ts : List (Future String (List (Detection Int)))) (now i : Nat)
        (f : Future String (List (Detection Int))) (e0 : String),
        ts[i]? = some f → f.shared = SharedState.exception e0 →
        (∀ j g, j < i → ts[j]? = some g → g.succeeded = true) →
        ∃ e, (gather_futures ts now).1 = .error e ∧ index_of e = i := by
  refine ⟨rfl, rfl, ?_⟩
  rintro ⟨index_of, h⟩
  obtain ⟨e1, h1, i1⟩ := h [⟨.exception "boom", 0⟩] 0 0 ⟨.exception "boom", 0⟩ "boom" rfl rfl
    (fun j g hj _ => absurd hj (Nat.not_lt_zero j))
  obtain ⟨e2, h2, i2⟩ := h [⟨.value [], 0⟩, ⟨.exception "boom", 0⟩] 0 1
    ⟨.exception "boom", 0⟩ "boom" rfl rfl
    (fun j g hj hg => by
      have hj0 : j = 0 := by omega
      subst hj0
      simp only [List.getElem?_cons_zero, Option.some.injEq] at hg
      subst hg
      rfl)
  have e1b : e1 = "boom" := by
    have : (Except.error "boom" : Except String (List (Detection Int))) = .error e1 := h1
    exact (Except.error.inj this).symm
  have e2b : e2 = "boom" := by
    have : (Except.error "boom" : Except String (List (Detection Int))) = .error e2 := h2
    exact (Except.error.inj this).symm
  rw [e1b] at i1
  rw [e2b] at i2
  omega

/-- C3 amended: when the task at index `i` holds the exception `e` and every
task before it holds a value, the aggregator fails with exactly `e`, the
task's own exception, unchanged. -/
theorem gather_futures_error_is_first_failure {ε Score : Type}
    (ts : List (Future ε (List (Detection Score)))) (now i : Nat)
    (f : Future ε (List (Detection Score))) (e : ε)
    (hi : ts[i]? = some f) (hf : f.shared = SharedState.exception e)
    (hlow : ∀ j g, j < i → ts[j]? = some g → g.succeeded = true) :
    (gather_futures ts now).1 = .error e := by
  rw [gather_futures, gather_loop_result, first_failure_at ts i f e hi hf hlow]

/-- C3 amended, on three tasks of which task 1 fails. -/
theorem gather_futures_error_is_first_failure_witness :
    (gather_futures
      ([⟨.value [("en", 9)], 0⟩, ⟨.exception "boom", 0⟩, ⟨.value [("de", 7)], 0⟩] :
        List (Future String (List (Detection Int)))) 0).1 = .error "boom" :=
  gather_futures_error_is_first_failure _ 0 1 ⟨.exception "boom", 0⟩ "boom" rfl rfl
    (fun j g hj hg => by
      have hj0 : j = 0 := by omega
      subst hj0
      simp only [List.getElem?_cons_zero, Option.some.injEq] at hg
      subst hg
      rfl)

/-- C6: on the empty sequence of tasks the aggregator returns the empty
sequence of pairs and does not fail; no `get()` is called. -/
theorem gather_futures_nil {ε Score : Type} (now : Nat) :
    gather_futures ([] : List (Future ε (List (Detection Score)))) now =
      (.ok [], ⟨[], now⟩) := rfl

/-- C7: when all tasks complete with values `r0, ..., r(n-1)`, the aggregator
succeeds and the length of its result is the sum of the lengths of the `ri`. -/
theorem gather_futures_length {ε Score : Type}
    (ts : List (Future ε (List (Detection Score)))) (now : Nat)
    (rs : List (List (Detection Score)))
    (h : ts.map Future.shared = rs.map SharedState.value) :
    ∃ r, (gather_futures ts now).1 = .ok r ∧ r.length = (rs.map List.length).sum := by
  obtain ⟨h1, h2⟩ := first_failure_of_values ts rs h
  refine ⟨rs.flatten, ?_, List.length_flatten rs⟩
  rw [gather_futures, gather_loop_result, h1, h2]
  simp

/-- C7 on results of lengths 2, 0 and 1. -/
theorem gather_futures_length_witness :
    ∃ r, (gather_futures
      ([⟨.value [("en", 9), ("fr", 1)], 3⟩, ⟨.value [], 2⟩, ⟨.value [("de", 7)], 1⟩] :
        List (Future String (List (Detection Int)))) 0).1 = .ok r ∧ r.length = 2 + (0 + (1 + 0)) :=
  gather_futures_length _ 0 [[("en", 9), ("fr", 1)], [], [("de", 7)]] rfl

/-- C9: the aggregator calls `get()` on the supplied futures in index order,
on a prefix of them and once each, and on nothing else.  If `i` is the lowest
index whose task fails, the call fails with that task's exception and the
futures consumed are those of indices `0, ..., i`; if no task fails, they are
all the futures `0, ..., n-1`. -/
theorem gather_futures_consumption {ε Score : Type}
    (ts : List (Future ε (List (Detection Score)))) (now : Nat) :
    (∃ n, n ≤ ts.length ∧ (gather_futures ts now).2.consumed = List.range n) ∧
    (∀ i f e, ts[i]? = some f → f.shared = SharedState.exception e →
      (∀ j g, j < i → ts[j]? = some g → g.succeeded = true) →
      (gather_futures ts now).1 = .error e ∧
      (gather_futures ts now).2.consumed = List.range (i + 1)) ∧
    ((∀ f ∈ ts, f.succeeded = true) →
      (gather_futures ts now).2.consumed = List.range ts.length) := by
  have hc : (gather_futures ts now).2.consumed = List.range (calls ts) := by
    rw [gather_futures, gather_loop_consumed, List.range_eq_range']
    simp
  refine ⟨⟨calls ts, calls_le ts, hc⟩, ?_, ?_⟩
  · intro i f e hi hf hlow
    have hff := first_failure_at ts i f e hi hf hlow
    refine ⟨?_, ?_⟩
    · rw [gather_futures, gather_loop_result, hff]
    · rw [hc, calls, hff]
  · intro hall
    rw [hc, calls, (first_failure_none_iff ts).2 hall]

/-- C9 on four tasks of which tasks 1 and 3 fail: tasks 0 and 1 are consumed,
tasks 2 and 3 are not, and the exception is that of task 1. -/
theorem gather_futures_consumption_witness :
    (gather_futures
      ([⟨.value [("en", 9)], 4⟩, ⟨.exception "first", 3⟩, ⟨.value [("de", 7)], 2⟩,
        ⟨.exception "second", 1⟩] : List (Future String (List (Detection Int)))) 0).1 =
      .error "first" ∧
    (gather_futures
      ([⟨.value [("en", 9)], 4⟩, ⟨.exception "first", 3⟩, ⟨.value [("de", 7)], 2⟩,
        ⟨.exception "second", 1⟩] : List (Future String (List (Detection Int)))) 0).2.consumed =
      List.range (1 + 1) :=
  (gather_futures_consumption _ 0).2.1 1 ⟨.exception "first", 3⟩ "first" rfl rfl
    (fun j g hj hg => by
      have hj0 : j = 0 := by omega
      subst hj0
      simp only [List.getElem?_cons_zero, Option.some.injEq] at hg
      subst hg
      rfl)

/-- C10: aggregating `ts1 ++ ts2` fails with the failure of `ts1` when `ts1`
fails, otherwise with the failure of `ts2` when `ts2` fails, and otherwise
returns the aggregate of `ts1` followed by the aggregate of `ts2`. -/
theorem gather_futures_append {ε Score : Type}
    (ts1 ts2 : List (Future ε (List (Detection Score)))) (now now1 now2 : Nat) :
    (gather_futures (ts1 ++ ts2) now).1 =
      match (gather_futures ts1 now1).1 with
      | .error e => .error e
      | .ok r1 =>
        match (gather_futures ts2 now2).1 with
        | .error e => .error e
        | .ok r2 => .ok (r1 ++ r2) := by
  simp only [gather_futures, gather_loop_result, first_failure_append, values_append]
  cases first_failure ts1 with
  | some p => simp
  | none =>
    cases first_failure ts2 with
    | some q => simp
    | none => simp

/-! ## The model handle factory -/

/-- C4: the factory succeeds exactly when the engine's constructor succeeds on
`model_dir`, and then returns the handle owning the model the constructor
built; when the constructor throws, the factory fails with that same exception
and returns no handle.  The constructor is run once: the state left behind is
the one left by its single call. -/
theorem new_whisper_outcome {ε W σ : Type} (Whisper_ctor : String → σ → Except ε W × σ)
    (model_dir : String) (device : Int) (s : σ) :
    (∀ w s', Whisper_ctor model_dir s = (.ok w, s') →
      new_whisper Whisper_ctor model_dir device s = (.ok ⟨w⟩, s')) ∧
    (∀ e s', Whisper_ctor model_dir s = (.error e, s') →
      new_whisper Whisper_ctor model_dir device s = (.error e, s')) ∧
    ((∃ h, (new_whisper Whisper_ctor model_dir device s).1 = .ok h) ↔
      ∃ w, (Whisper_ctor model_dir s).1 = .ok w) ∧
    (new_whisper Whisper_ctor model_dir device s).2 = (Whisper_ctor model_dir s).2 := by
  refine ⟨?_, ?_, ?_, ?_⟩
  · intro w s' h
    simp [new_whisper, h]
  · intro e s' h
    simp [new_whisper, h]
  · rcases h : Whisper_ctor model_dir s with ⟨r, s'⟩
    cases r with
    | ok w => simp [new_whisper, h]
    | error e => simp [new_whisper, h]
  · rcases h : Whisper_ctor model_dir s with ⟨r, s'⟩
    cases r with
    | ok w => simp [new_whisper, h]
    | error e => simp [new_whisper, h]

/-- C4 with a constructor that counts its calls, fails on the location `""`
and otherwise builds a model named after the location: one call is made. -/
theorem new_whisper_outcome_witness :
    new_whisper (fun (dir : String) (n : Nat) =>
        if dir = "" then ((.error "no model" : Except String String), n + 1)
        else (.ok dir, n + 1)) "tiny" 0 0 = (.ok ⟨"tiny"⟩, 1) ∧
    new_whisper (fun (dir : String) (n : Nat) =>
        if dir = "" then ((.error "no model" : Except String String), n + 1)
        else (.ok dir, n + 1)) "" 0 0 = (.error "no model", 1) :=
  ⟨(new_whisper_outcome _ "tiny" 0 0).1 "tiny" 1 (by simp),
   (new_whisper_outcome _ "" 0 0).2.1 "no model" 1 (by simp)⟩

/-- C5: the `device` argument has no effect: for one location and one state
of the world, any two values of it give the same outcome and the same state.
The constructor is called with the location alone. -/
theorem new_whisper_device_irrelevant {ε W σ : Type}
    (Whisper_ctor : String → σ → Except ε W × σ) (model_dir : String) (d1 d2 : Int) (s : σ) :
    new_whisper Whisper_ctor model_dir d1 s = new_whisper Whisper_ctor model_dir d2 s := rfl

end models
end ctranslate2
